import Mathlib

/-!
Shallow embedding of the analysis scripts of this repository
(lab5_final, lab6_final, lab78_final) and proofs of the specified
properties of their derived statistics.

Python floats are modelled as rationals (ℚ), Python strings as `List Char`,
JSON dictionaries as structures with `Option` fields (a `none` field models
an absent key), and a file read that may fail as an `Option` input
(`none` models a missing/unreadable file).
-/

namespace PyStr

/-- Python's substring test `pat in s` on strings modelled as `List Char`. -/
def hasSub (pat : List Char) : List Char → Bool
  | [] => pat.isPrefixOf ([] : List Char)
  | c :: cs => pat.isPrefixOf (c :: cs) || hasSub pat cs

/-- Python's `s.split(sep)` for a one-character separator: the list of
(fieldwise, possibly empty) chunks; `"".split(sep) = [""]`. -/
def splitOnChar (sep : Char) : List Char → List (List Char)
  | [] => [[]]
  | c :: cs =>
    if c = sep then [] :: splitOnChar sep cs
    else
      match splitOnChar sep cs with
      | [] => [[c]]
      | r :: rs => (c :: r) :: rs

/-- Model of `line.split(" ")[0]`: the first space-separated field of a line
(empty when the line starts with a space). -/
def firstField (line : List Char) : List Char :=
  (splitOnChar ' ' line).headD []

/-- Python's `sep.join(parts)` for a one-character separator. -/
def joinChar (sep : Char) : List (List Char) → List Char
  | [] => []
  | [x] => x
  | x :: y :: rest => x ++ sep :: joinChar sep (y :: rest)

/-- Split off everything before the first occurrence of `sep`;
`none` when `sep` does not occur. -/
def splitFirst (sep : Char) : List Char → Option (List Char × List Char)
  | [] => none
  | c :: cs =>
    if c = sep then some ([], cs)
    else
      match splitFirst sep cs with
      | none => none
      | some (a, b) => some (c :: a, b)

/-- Python's `s.split(sep, maxsplit)`: at most `maxsplit` splits, the last
chunk keeps any further separators. -/
def splitLimit (sep : Char) : Nat → List Char → List (List Char)
  | 0, s => [s]
  | n + 1, s =>
    match splitFirst sep s with
    | none => [s]
    | some (a, b) => a :: splitLimit sep n b

end PyStr

namespace Assoc

/-- Lookup in an association list keyed by strings (`List Char`). -/
def lookupA {α : Type} : List (List Char × α) → List Char → Option α
  | [], _ => none
  | (n, a) :: rest, m => if n = m then some a else lookupA rest m

/-- The update performed by Python's `defaultdict` on key `m`: the first
entry with key `m` is updated by `f`; if no entry exists, `(m, f d)` is
appended (insertion order preserved), `d` being the default value. -/
def upsertWith {α : Type} (f : α → α) (d : α) :
    List (List Char × α) → List Char → List (List Char × α)
  | [], m => [(m, f d)]
  | (n, a) :: rest, m =>
    if n = m then (n, f a) :: rest else (n, a) :: upsertWith f d rest m

end Assoc

namespace BanditRun

/-- One entry of `results[]` in a Bandit JSON report, with the fields read
by `parse_bandit_results` of `run_bandit_analysis.py` (`issue_cwe_id` is
`result['issue_cwe']['id']` when `issue_cwe` with an `id` is present). -/
structure BanditFinding where
  issue_confidence : Option String
  issue_severity : Option String
  issue_cwe_id : Option Int
  issue_text : Option String
deriving DecidableEq, Repr

/-- A loaded Bandit JSON report; `results` is `data.get('results', [])`. -/
structure BanditData where
  results : Option (List BanditFinding)
deriving DecidableEq, Repr

/-- The metrics dictionary built by `parse_bandit_results` (after the final
set-to-list conversion of `unique_cwes`). -/
structure Metrics where
  high_confidence : Nat
  medium_confidence : Nat
  low_confidence : Nat
  high_severity : Nat
  medium_severity : Nat
  low_severity : Nat
  unique_cwes : List (List Char)
deriving DecidableEq, Repr

def init_metrics : Metrics := ⟨0, 0, 0, 0, 0, 0, []⟩

/-- The regex fall-back `re.search(r"CWE-(\d+)", text)`: scan left to right
for "CWE-" followed by at least one digit and capture the digit run. -/
def cwe_search : List Char → Option (List Char)
  | [] => none
  | c :: cs =>
    if "CWE-".toList.isPrefixOf (c :: cs) ∧
        ((c :: cs).drop 4).takeWhile Char.isDigit ≠ [] then
      some (((c :: cs).drop 4).takeWhile Char.isDigit)
    else
      cwe_search cs

/-- Model of `set.add`: the set is modelled as a duplicate-free list in insertion
order (Python's set iteration order is unspecified; no claim depends on
the order). -/
def add_cwe (l : List (List Char)) (s : List Char) : List (List Char) :=
  if s ∈ l then l else l ++ [s]

/-- The confidence `if/elif` chain of the loop of `parse_bandit_results`. -/
def tally_confidence (m : Metrics) (r : BanditFinding) : Metrics :=
  if r.issue_confidence = some "HIGH" then
    { m with high_confidence := m.high_confidence + 1 }
  else if r.issue_confidence = some "MEDIUM" then
    { m with medium_confidence := m.medium_confidence + 1 }
  else if r.issue_confidence = some "LOW" then
    { m with low_confidence := m.low_confidence + 1 }
  else m

/-- The severity `if/elif` chain of the loop of `parse_bandit_results`. -/
def tally_severity (m : Metrics) (r : BanditFinding) : Metrics :=
  if r.issue_severity = some "HIGH" then
    { m with high_severity := m.high_severity + 1 }
  else if r.issue_severity = some "MEDIUM" then
    { m with medium_severity := m.medium_severity + 1 }
  else if r.issue_severity = some "LOW" then
    { m with low_severity := m.low_severity + 1 }
  else m

/-- The CWE extraction of the loop: `issue_cwe.id` when present, else the
regex fall-back on `result.get('issue_text', '')`. -/
def tally_cwe (m : Metrics) (r : BanditFinding) : Metrics :=
  match r.issue_cwe_id with
  | some id => { m with unique_cwes := add_cwe m.unique_cwes (toString id).toList }
  | none =>
    match cwe_search (r.issue_text.getD "").toList with
    | some ds => { m with unique_cwes := add_cwe m.unique_cwes ds }
    | none => m

/-- One iteration of the `for result in data.get('results', [])` loop. -/
def tally (m : Metrics) (r : BanditFinding) : Metrics :=
  tally_cwe (tally_severity (tally_confidence m r) r) r

def compute_metrics (data : BanditData) : Metrics :=
  (data.results.getD []).foldl tally init_metrics

/-- Model of `parse_bandit_results`: a `none` input models a missing/unreadable/
invalid output file (any exception in the `try` block), on which the
function prints a message and returns `None`. -/
def parse_bandit_results : Option BanditData → Option Metrics
  | none => none
  | some data => some (compute_metrics data)

/-- The `unique_cwes` CSV field written by `main`:
`','.join(metrics['unique_cwes'])`. -/
def write_unique_cwes (cwes : List (List Char)) : List Char :=
  PyStr.joinChar ',' cwes

/-- A row of `results.csv` as written by `main` of
`run_bandit_analysis.py`. -/
structure CsvRow where
  commit_hash : List Char
  author : List Char
  date : List Char
  message : List Char
  high_confidence : Nat
  medium_confidence : Nat
  low_confidence : Nat
  high_severity : Nat
  medium_severity : Nat
  low_severity : Nat
  unique_cwes : List Char
deriving DecidableEq, Repr

/-- The commit fields used when writing a row. -/
structure CommitInfo where
  hash : List Char
  author : List Char
  date : List Char
  message : List Char
deriving DecidableEq, Repr

def make_row (c : CommitInfo) (m : Metrics) : CsvRow :=
  ⟨c.hash, c.author, c.date, c.message,
   m.high_confidence, m.medium_confidence, m.low_confidence,
   m.high_severity, m.medium_severity, m.low_severity,
   write_unique_cwes m.unique_cwes⟩

/-- One iteration of the per-commit loop of `main`: `bandit_raises` models
an exception raised by `git checkout`/Bandit (`run_bandit_on_commit`),
caught by the `except` that logs and continues; otherwise
`parse_bandit_results` runs on the commit's output file (`out`), and a row
is written under `if metrics:` (the metrics dictionary is non-empty, so
truthy exactly when not `None`). -/
def process_commit (c : CommitInfo) (bandit_raises : Bool)
    (out : Option BanditData) : Option CsvRow :=
  if bandit_raises then none
  else
    match parse_bandit_results out with
    | none => none
    | some m => some (make_row c m)

/-- The rows of `results.csv` produced by the whole per-commit loop, each
commit paired with its failure flag and its Bandit output file. -/
def main_rows (items : List (CommitInfo × Bool × Option BanditData)) :
    List CsvRow :=
  items.filterMap fun it => process_commit it.1 it.2.1 it.2.2

end BanditRun

namespace AnalyzeResults

/-- The `unique_cwes` column parsing of `load_repository_results`:
`lambda x: [] if pd.isna(x) else x.split(",") if x else []`.
Pandas reads an empty CSV field as NaN; both the NaN branch and the
empty-string branch yield `[]`, so an empty field maps to `[]`. -/
def read_unique_cwes (field : List Char) : List (List Char) :=
  if field = [] then [] else PyStr.splitOnChar ',' field

/-- From `analyze_results.py`, `answer_rq1`/`answer_rq2`:
`df["<level>_severity_change"] = df["<level>_severity"].diff()`.
Pandas `diff` at row 0 yields NaN, modelled as `none`; at row `i > 0` it is
the count at `i` minus the count at `i-1`. -/
def severity_change (counts : List Int) (i : Nat) : Option Int :=
  if 0 < i ∧ i < counts.length then
    some (counts.getD i 0 - counts.getD (i - 1) 0)
  else
    none

/-- Model of `df["<level>_severity_introduced"] = change.apply(lambda x: max(0, x))`.
In Python `max(0, nan) = 0` (the comparison `nan > 0` is false), so the NaN
row is modelled as `0`. -/
def severity_introduced (counts : List Int) (i : Nat) : Int :=
  match severity_change counts i with
  | none => 0
  | some d => max 0 d

/-- Model of `df["<level>_severity_fixed"] = change.apply(lambda x: max(0, -x))`,
with `max(0, -nan) = 0` as above. -/
def severity_fixed (counts : List Int) (i : Nat) : Int :=
  match severity_change counts i with
  | none => 0
  | some d => max 0 (-d)

end AnalyzeResults

namespace CoverageScripts

/-- Model of `files.<path>.summary` of a coverage.py JSON report (the two fields
read by these scripts); an absent key is `none` and `summary.get(k, 0)`
is `getD 0`. -/
structure FileSummary where
  covered_lines : Option Int
  num_statements : Option Int
deriving DecidableEq, Repr

/-- The `totals` object of a coverage.py JSON report. -/
structure Totals where
  covered_lines : Option Int
  num_statements : Option Int
  percent_covered : Option ℚ
  missing_lines : Option Int
deriving DecidableEq, Repr

/-- A loaded coverage JSON: `totals` and `files` keys, either possibly
absent. The condition `not data or 'totals' not in data` of
`extract_coverage_metrics` is equivalent to `totals = none` here. -/
structure CoverageData where
  totals : Option Totals
  files : Option (List (List Char × FileSummary))
deriving DecidableEq, Repr

/-- The `{}` with which `load_coverage_data` initialises each suite. -/
def empty_coverage : CoverageData := ⟨none, none⟩

/-- Model of `load_coverage_data` of `coverage-comparison.py` (identical in
`module-level-coverage.py`): each file is read independently and a
`FileNotFoundError` is caught, leaving the initial `{}`. A `none` input
models a missing file. -/
def load_coverage_data (suite_a_file suite_b_file : Option CoverageData) :
    CoverageData × CoverageData :=
  (suite_a_file.getD empty_coverage, suite_b_file.getD empty_coverage)

/-- The dictionary returned by `extract_coverage_metrics`. -/
structure CoverageMetrics where
  line_coverage : ℚ
  branch_coverage : ℚ
  missing_lines : Int
  num_statements : Int
deriving DecidableEq, Repr

/-- Model of `extract_coverage_metrics` of `coverage-comparison.py`. Note
`branch_coverage` divides only when `percent_covered` is present and
numeric (the `isinstance` check uses `totals.get('percent_covered')`
without a default). -/
def extract_coverage_metrics (data : CoverageData) : CoverageMetrics :=
  match data.totals with
  | none => ⟨0, 0, 0, 0⟩
  | some totals =>
    { line_coverage :=
        if totals.num_statements.getD 0 > 0 then
          (totals.covered_lines.getD 0 : ℚ) / (totals.num_statements.getD 1 : ℚ)
        else 0,
      branch_coverage :=
        match totals.percent_covered with
        | some pc => pc / 100
        | none => 0,
      missing_lines := totals.missing_lines.getD 0,
      num_statements := totals.num_statements.getD 0 }

/-- Model of `re.search(r"algorithms/([^/]+)", file_path)` of
`extract_module_metrics`: scan for "algorithms/" followed by at least one
non-slash character and capture the maximal non-slash run. -/
def find_module : List Char → Option (List Char)
  | [] => none
  | c :: cs =>
    if "algorithms/".toList.isPrefixOf (c :: cs) ∧
        ((c :: cs).drop 11).takeWhile (fun ch => ch ≠ '/') ≠ [] then
      some (((c :: cs).drop 11).takeWhile (fun ch => ch ≠ '/'))
    else
      find_module cs

/-- The per-file selection of `extract_module_metrics` of
`module-level-coverage.py`: skip test files, then extract the module name
from the path, skipping the `tests`/`pynguin_tests` pseudo-modules. -/
def file_module (path : List Char) : Option (List Char) :=
  if PyStr.hasSub "/tests/".toList path
      || PyStr.hasSub "pynguin_tests".toList path
      || "__init__.py".toList.isSuffixOf path then
    none
  else
    match find_module path with
    | none => none
    | some m =>
      if m = "tests".toList ∨ m = "pynguin_tests".toList then none
      else some m

/-- The per-module accumulator of the `defaultdict` of
`extract_module_metrics`. -/
structure ModuleAcc where
  total_lines : Int
  covered_lines : Int
  files : Nat
deriving DecidableEq, Repr

/-- Default of `defaultdict(lambda: {'total_lines': 0, 'covered_lines': 0, 'files': 0})`. -/
def module_default : ModuleAcc := ⟨0, 0, 0⟩

/-- The per-file update: `covered_lines += summary.get('covered_lines', 0)`,
`total_lines += summary.get('num_statements', 0)`, `files += 1`. -/
def upd_acc (a : ModuleAcc) (s : FileSummary) : ModuleAcc :=
  { total_lines := a.total_lines + s.num_statements.getD 0,
    covered_lines := a.covered_lines + s.covered_lines.getD 0,
    files := a.files + 1 }

/-- One iteration of the `for file_path, file_data in
coverage_data.get('files', {}).items()` loop. -/
def module_step (acc : List (List Char × ModuleAcc))
    (f : List Char × FileSummary) : List (List Char × ModuleAcc) :=
  match file_module f.1 with
  | none => acc
  | some m => Assoc.upsertWith (fun a => upd_acc a f.2) module_default acc m

/-- The accumulation phase of `extract_module_metrics`. -/
def module_totals (files : List (List Char × FileSummary)) :
    List (List Char × ModuleAcc) :=
  files.foldl module_step []

/-- A per-module metrics entry after the final coverage loop. -/
structure ModuleMetrics where
  total_lines : Int
  covered_lines : Int
  files : Nat
  coverage : ℚ
deriving DecidableEq, Repr

/-- Model of `extract_module_metrics`: accumulate per-module sums, then set
`coverage = covered_lines / total_lines if total_lines > 0 else 0`. -/
def extract_module_metrics (coverage_data : CoverageData) :
    List (List Char × ModuleMetrics) :=
  (module_totals (coverage_data.files.getD [])).map fun p =>
    (p.1,
     ⟨p.2.total_lines, p.2.covered_lines, p.2.files,
      if p.2.total_lines > (0 : Int) then
        (p.2.covered_lines : ℚ) / (p.2.total_lines : ℚ)
      else 0⟩)

/-- Spec-side definition: the summaries of the files mapped to module `m`. -/
def module_files (files : List (List Char × FileSummary)) (m : List Char) :
    List FileSummary :=
  (files.filter fun f => decide (file_module f.1 = some m)).map Prod.snd

/-- Spec-side definition: the per-module sum of `summary.covered_lines`. -/
def module_covered_sum (files : List (List Char × FileSummary))
    (m : List Char) : Int :=
  ((module_files files m).map fun s => s.covered_lines.getD 0).sum

/-- Spec-side definition: the per-module sum of `summary.num_statements`. -/
def module_total_sum (files : List (List Char × FileSummary))
    (m : List Char) : Int :=
  ((module_files files m).map fun s => s.num_statements.getD 0).sum

end CoverageScripts

namespace AnalysisScript

/-- The shape of `sequential_results.json` as consumed by `main` of
`analysis-script.py`. -/
structure SeqResults where
  failing_tests : List (List Char)
  flaky_tests : List (List Char)
  execution_times : List ℚ
deriving DecidableEq, Repr

/-- The default substituted by the bare `except` of `main` when
`sequential_results.json` cannot be read. -/
def default_sequential_results : SeqResults := ⟨[], [], []⟩

/-- The `try/except` around `json.load(open("sequential_results.json"))`
in `main`; a `none` input models a missing/unreadable file. -/
def load_sequential_results (j : Option SeqResults) : SeqResults :=
  j.getD default_sequential_results

end AnalysisScript

namespace ParallelTests

/-- A parallel configuration, from `parallel-test-script.py`
(`worker_count`, `thread_count`, `dist_mode` are strings such as
"1", "auto", "no", "load"). -/
structure PConfig where
  worker_count : String
  thread_count : String
  dist_mode : String
deriving DecidableEq, Repr

/-- The result dictionary built by `run_parallel_tests` and extended by
`execute_all_configurations` (`speedup`/`tseq_used` are absent until the
caller adds them, modelled with `Option`). -/
structure PResult where
  config : PConfig
  tpar : ℚ
  avg_time : ℚ
  times : List ℚ
  speedup : Option ℚ
  tseq_used : Option ℚ
deriving DecidableEq, Repr

/-- Model of `run_parallel_tests`: `tpar = sum(execution_times) / len(execution_times)`
and the returned dictionary (`times`, `tpar`, `avg_time` kept; the failure
fields are not part of the timing claims). -/
def run_parallel_tests (config : PConfig) (times : List ℚ) : PResult :=
  let tpar := times.sum / (times.length : ℚ)
  { config := config, tpar := tpar, avg_time := tpar, times := times,
    speedup := none, tseq_used := none }

/-- Model of `calculate_speedup(sequential_time, parallel_time)`. -/
def calculate_speedup (sequential_time parallel_time : ℚ) : ℚ :=
  sequential_time / parallel_time

/-- One iteration of the loop in `execute_all_configurations`:
`result = run_parallel_tests(config)`, then
`result["speedup"] = calculate_speedup(tseq, result["tpar"])` and
`result["tseq_used"] = tseq`. -/
def execute_configuration (tseq : ℚ) (config : PConfig) (times : List ℚ) :
    PResult :=
  let result := run_parallel_tests config times
  { result with speedup := some (calculate_speedup tseq result.tpar),
                tseq_used := some tseq }

/-- The loop of `execute_all_configurations` over the configuration list,
with each configuration's measured iteration times supplied alongside it. -/
def execute_all_configurations (tseq : ℚ)
    (runs : List (PConfig × List ℚ)) : List PResult :=
  runs.map fun p => execute_configuration tseq p.1 p.2

/-- Spec-side definition: the arithmetic mean of a list of rationals. -/
def arithmetic_mean (xs : List ℚ) : ℚ :=
  xs.sum / (xs.length : ℚ)

end ParallelTests

namespace SequentialTests

/-- One line of the loop in `run_sequential_tests` of
`sequential-test-script.py`:
a line is recorded iff `" PASSED " in line or " FAILED " in line or
" ERROR " in line`; the test name is `line.split(" ")[0]` and the status is
`"PASSED" if " PASSED " in line else "FAILED"`. -/
def parse_seq_line (line : List Char) : Option (List Char × String) :=
  if PyStr.hasSub " PASSED ".toList line || PyStr.hasSub " FAILED ".toList line
      || PyStr.hasSub " ERROR ".toList line then
    some (PyStr.firstField line,
      if PyStr.hasSub " PASSED ".toList line then "PASSED" else "FAILED")
  else
    none

/-- One line of the failure scan in `run_parallel_tests` of
`parallel-test-script.py` (also `verify_clean_test_suite`): a failing test
name is recorded iff `" FAILED " in line or " ERROR " in line`. -/
def parse_par_line (line : List Char) : Option (List Char) :=
  if PyStr.hasSub " FAILED ".toList line || PyStr.hasSub " ERROR ".toList line then
    some (PyStr.firstField line)
  else
    none

/-- The recorded (name, status) pairs of one pytest run, in line order. -/
def parse_output (lines : List (List Char)) : List (List Char × String) :=
  lines.filterMap parse_seq_line

/-- Model of `test_results`: the `defaultdict(list)` built by appending each recorded
status to its test's list, over all lines of all iterations. -/
def test_results (lines : List (List Char)) :
    List (List Char × List String) :=
  (parse_output lines).foldl
    (fun acc p => Assoc.upsertWith (fun l => l ++ [p.2]) [] acc p.1) []

/-- Model of `all(result == "FAILED" for result in results)`. -/
def failingPred (sts : List String) : Bool :=
  sts.all (fun r => r == "FAILED")

/-- The `elif` guard: `"PASSED" in results and "FAILED" in results`,
reached only when the `all(... == "FAILED")` test failed. -/
def flakyPred (sts : List String) : Bool :=
  !(failingPred sts) && decide ("PASSED" ∈ sts) && decide ("FAILED" ∈ sts)

/-- Model of `failing_tests`: tests all of whose recorded statuses are FAILED. -/
def failing_tests (tr : List (List Char × List String)) : List (List Char) :=
  (tr.filter fun p => failingPred p.2).map Prod.fst

/-- Model of `flaky_tests`: tests reaching the `elif` branch. -/
def flaky_tests (tr : List (List Char × List String)) : List (List Char) :=
  (tr.filter fun p => flakyPred p.2).map Prod.fst

end SequentialTests

namespace GitLog

/-- The numeric value of an all-digit string. -/
def digitsVal (s : List Char) : Int :=
  ((s.foldl (fun n c => 10 * n + (c.toNat - 48)) 0 : Nat) : Int)

/-- Python's `int()` on the timestamp field. `git log --pretty=%at` emits
all-digit strings; on those `int()` yields the numeric value. (On a
non-digit string Python's `int()` would raise out of the function; the
model returns `none` there, and the C9 theorem assumes digit fields.) -/
def decDigits (s : List Char) : Option Int :=
  if s ≠ [] ∧ s.all Char.isDigit then some (digitsVal s) else none

/-- One commit dictionary built by `get_last_100_non_merge_commits` of
`run_bandit_analysis.py`. -/
structure CommitRec where
  hash : List Char
  author : List Char
  timestamp : Int
  date : List Char
  message : List Char
deriving DecidableEq, Repr

/-- One line of the loop: skipped when empty, then `line.split(',', 3)`
must give exactly four parts; the timestamp is converted with `int` and
the date formatted from it (`fmt` models
`datetime.fromtimestamp(...).strftime('%Y-%m-%d %H:%M:%S')`, an external
library function passed as a parameter). -/
def parse_commit_line (fmt : Int → List Char) (line : List Char) :
    Option CommitRec :=
  if line = [] then none
  else
    match PyStr.splitLimit ',' 3 line with
    | [commit_hash, author, timestamp, message] =>
      match decDigits timestamp with
      | some ts => some ⟨commit_hash, author, ts, fmt ts, message⟩
      | none => none
    | _ => none

/-- Model of `get_last_100_non_merge_commits` on the lines of the git log output
(after `stdout.strip().split('\n')`): parse each line in order and return
`commits[:100]`. -/
def get_last_100_non_merge_commits (fmt : Int → List Char)
    (lines : List (List Char)) : List CommitRec :=
  (lines.filterMap (parse_commit_line fmt)).take 100

/-- The text of one git-log line under `--pretty=format:%H,%an,%at,%s`
for a commit with hash/author/timestamp/subject fields. -/
def render_git_line (e : List Char × List Char × List Char × List Char) :
    List Char :=
  e.1 ++ ',' :: (e.2.1 ++ ',' :: (e.2.2.1 ++ ',' :: e.2.2.2))

/-- The commit record expected for one well-formed git-log entry. -/
def entry_record (fmt : Int → List Char)
    (e : List Char × List Char × List Char × List Char) : CommitRec :=
  ⟨e.1, e.2.1, digitsVal e.2.2.1, fmt (digitsVal e.2.2.1), e.2.2.2⟩

end GitLog


namespace PyStr

theorem splitOnChar_ne_nil (sep : Char) (s : List Char) :
    splitOnChar sep s ≠ [] := by
  cases s with
  | nil => simp [splitOnChar]
  | cons c cs =>
    simp only [splitOnChar]
    split_ifs
    · simp
    · cases h : splitOnChar sep cs <;> simp

theorem splitOnChar_of_not_mem (sep : Char) (s : List Char)
    (h : sep ∉ s) : splitOnChar sep s = [s] := by
  induction s with
  | nil => simp [splitOnChar]
  | cons c cs ih =>
    have hc : c ≠ sep := fun hcs => h (hcs ▸ List.mem_cons_self c cs)
    have hcs' : sep ∉ cs := fun hm => h (List.mem_cons_of_mem c hm)
    simp only [splitOnChar, if_neg hc, ih hcs']

theorem splitOnChar_append (sep : Char) (x r : List Char)
    (hx : sep ∉ x) :
    splitOnChar sep (x ++ sep :: r) = x :: splitOnChar sep r := by
  induction x with
  | nil => simp [splitOnChar]
  | cons c cs ih =>
    have hc : c ≠ sep := fun hcs => hx (hcs ▸ List.mem_cons_self c cs)
    have hcs' : sep ∉ cs := fun hm => hx (List.mem_cons_of_mem c hm)
    have hrec := ih hcs'
    simp only [List.cons_append, splitOnChar, if_neg hc, List.append_eq, hrec]

theorem splitFirst_append (sep : Char) (x r : List Char)
    (hx : sep ∉ x) :
    splitFirst sep (x ++ sep :: r) = some (x, r) := by
  induction x with
  | nil => simp [splitFirst]
  | cons c cs ih =>
    have hc : c ≠ sep := fun hcs => hx (hcs ▸ List.mem_cons_self c cs)
    have hcs' : sep ∉ cs := fun hm => hx (List.mem_cons_of_mem c hm)
    simp only [List.cons_append, splitFirst, if_neg hc, List.append_eq, ih hcs']

theorem joinChar_ne_nil (sep : Char) (x : List Char) (l : List (List Char))
    (hx : x ≠ []) : joinChar sep (x :: l) ≠ [] := by
  cases l with
  | nil => simpa [joinChar] using hx
  | cons y rest => simp [joinChar, hx]

end PyStr

namespace Assoc

theorem keys_upsertWith_subset {α : Type} (f : α → α) (d : α)
    (acc : List (List Char × α)) (m k : List Char)
    (h : k ∈ (upsertWith f d acc m).map Prod.fst) :
    k ∈ acc.map Prod.fst ∨ k = m := by
  induction acc with
  | nil =>
    simp only [upsertWith, List.map_cons, List.map_nil,
      List.mem_singleton] at h
    exact Or.inr h
  | cons p rest ih =>
    obtain ⟨n, a⟩ := p
    simp only [upsertWith] at h
    by_cases hnm : n = m
    · rw [if_pos hnm, List.map_cons] at h
      rw [List.map_cons]
      rcases List.mem_cons.mp h with h1 | h1
      · exact Or.inl (List.mem_cons.mpr (Or.inl h1))
      · exact Or.inl (List.mem_cons.mpr (Or.inr h1))
    · rw [if_neg hnm, List.map_cons] at h
      rw [List.map_cons]
      rcases List.mem_cons.mp h with h1 | h1
      · exact Or.inl (List.mem_cons.mpr (Or.inl h1))
      · rcases ih h1 with h2 | h2
        · exact Or.inl (List.mem_cons.mpr (Or.inr h2))
        · exact Or.inr h2

theorem nodupKeys_upsertWith {α : Type} (f : α → α) (d : α)
    (acc : List (List Char × α)) (m : List Char)
    (hnd : (acc.map Prod.fst).Nodup) :
    ((upsertWith f d acc m).map Prod.fst).Nodup := by
  induction acc with
  | nil =>
    exact List.nodup_singleton m
  | cons p rest ih =>
    obtain ⟨n, a⟩ := p
    rw [List.map_cons, List.nodup_cons] at hnd
    simp only [upsertWith]
    by_cases hnm : n = m
    · rw [if_pos hnm, List.map_cons, List.nodup_cons]
      exact ⟨hnd.1, hnd.2⟩
    · rw [if_neg hnm, List.map_cons, List.nodup_cons]
      refine ⟨?_, ih hnd.2⟩
      intro hin
      rcases keys_upsertWith_subset f d rest m n hin with h1 | h1
      · exact hnd.1 h1
      · exact hnm h1

theorem lookupA_upsertWith {α : Type} (f : α → α) (d : α)
    (acc : List (List Char × α)) (m k : List Char) :
    lookupA (upsertWith f d acc m) k =
      if m = k then some (f ((lookupA acc m).getD d)) else lookupA acc k := by
  induction acc with
  | nil =>
    by_cases h : m = k <;> simp [upsertWith, lookupA, h]
  | cons p rest ih =>
    obtain ⟨n, a⟩ := p
    by_cases h : n = m
    · subst h
      by_cases hk : n = k <;> simp [upsertWith, lookupA, hk]
    · by_cases hk : n = k
      · subst hk
        have : ¬ n = m := h
        simp [upsertWith, if_neg h, lookupA, if_neg (fun hmn : m = n => h hmn.symm)]
      · simp [upsertWith, if_neg h, lookupA, if_neg hk, ih]

theorem lookupA_of_mem_nodup {α : Type} (acc : List (List Char × α))
    (m : List Char) (a : α)
    (hnd : (acc.map Prod.fst).Nodup) (hmem : (m, a) ∈ acc) :
    lookupA acc m = some a := by
  induction acc with
  | nil => cases hmem
  | cons p rest ih =>
    obtain ⟨n, b⟩ := p
    rw [List.map_cons, List.nodup_cons] at hnd
    rcases List.mem_cons.mp hmem with heq | hmem'
    · injection heq with h1 h2
      subst h1; subst h2
      simp [lookupA]
    · have hmk : m ∈ rest.map Prod.fst :=
        List.mem_map_of_mem Prod.fst hmem'
      have hne : ¬ n = m := fun h => hnd.1 (h ▸ hmk)
      simp [lookupA, if_neg hne, ih hnd.2 hmem']

theorem mem_keys_filter_exists {α : Type} (q : List Char × α → Bool)
    (acc : List (List Char × α)) (m : List Char)
    (h : m ∈ (acc.filter q).map Prod.fst) :
    ∃ a, (m, a) ∈ acc ∧ q (m, a) = true := by
  obtain ⟨p, hp, hfst⟩ := List.mem_map.mp h
  obtain ⟨hin, hq⟩ := List.mem_filter.mp hp
  obtain ⟨n, a⟩ := p
  cases hfst
  exact ⟨a, hin, hq⟩

theorem mem_keys_filter_iff {α : Type} (q : List Char × α → Bool)
    (acc : List (List Char × α)) (m : List Char) (a : α)
    (hnd : (acc.map Prod.fst).Nodup) (hmem : (m, a) ∈ acc) :
    (m ∈ (acc.filter q).map Prod.fst) ↔ q (m, a) = true := by
  induction acc with
  | nil => cases hmem
  | cons p rest ih =>
    obtain ⟨n, b⟩ := p
    rw [List.map_cons, List.nodup_cons] at hnd
    rcases List.mem_cons.mp hmem with heq | hmem'
    · injection heq with h1 h2
      subst h1; subst h2
      rw [List.filter_cons]
      constructor
      · intro hmm
        by_cases hq : q (m, a) = true
        · exact hq
        · rw [if_neg hq] at hmm
          obtain ⟨c, hc, _⟩ := mem_keys_filter_exists q rest m hmm
          exact absurd (List.mem_map_of_mem Prod.fst hc) hnd.1
      · intro hq
        rw [if_pos hq, List.map_cons]
        exact List.mem_cons_self _ _
    · have hmk : m ∈ rest.map Prod.fst :=
        List.mem_map_of_mem Prod.fst hmem'
      have hne : m ≠ n := fun h => hnd.1 (h ▸ hmk)
      rw [List.filter_cons]
      split_ifs with hq
      · rw [List.map_cons, List.mem_cons]
        simp only [hne, false_or]
        exact ih hnd.2 hmem'
      · exact ih hnd.2 hmem'

end Assoc

namespace SequentialTests

theorem test_results_nodup_keys (lines : List (List Char)) :
    ((test_results lines).map Prod.fst).Nodup := by
  unfold test_results
  generalize parse_output lines = ps
  have h : ∀ (acc : List (List Char × List String)),
      (acc.map Prod.fst).Nodup →
      ((ps.foldl
        (fun acc p => Assoc.upsertWith (fun l => l ++ [p.2]) [] acc p.1)
        acc).map Prod.fst).Nodup := by
    induction ps with
    | nil => intro acc hacc; exact hacc
    | cons q qs ih =>
      intro acc hacc
      exact ih _ (Assoc.nodupKeys_upsertWith _ _ acc q.1 hacc)
  exact h [] (by simp)

end SequentialTests

/-- C1: for every per-commit severity-count series and commit `i` having a
previous commit, with `d` the difference between commit `i`'s count and
commit `i-1`'s, the introduced value is `max 0 d`, the fixed value is
`max 0 (-d)`, both are non-negative, introduced minus fixed equals `d`,
and at most one of the two is nonzero. -/
theorem c1_severity_delta (counts : List Int) (i : Nat)
    (h0 : 0 < i) (hi : i < counts.length) :
    AnalyzeResults.severity_introduced counts i =
      max 0 (counts.getD i 0 - counts.getD (i - 1) 0) ∧
    AnalyzeResults.severity_fixed counts i =
      max 0 (-(counts.getD i 0 - counts.getD (i - 1) 0)) ∧
    0 ≤ AnalyzeResults.severity_introduced counts i ∧
    0 ≤ AnalyzeResults.severity_fixed counts i ∧
    AnalyzeResults.severity_introduced counts i -
      AnalyzeResults.severity_fixed counts i =
      counts.getD i 0 - counts.getD (i - 1) 0 ∧
    (AnalyzeResults.severity_introduced counts i = 0 ∨
      AnalyzeResults.severity_fixed counts i = 0) := by
  have hcond : 0 < i ∧ i < counts.length := ⟨h0, hi⟩
  simp only [AnalyzeResults.severity_introduced, AnalyzeResults.severity_fixed,
    AnalyzeResults.severity_change, if_pos hcond]
  set d := counts.getD i 0 - counts.getD (i - 1) 0 with hd
  rcases le_total 0 d with hle | hle
  · rw [max_eq_right hle, max_eq_left (by omega)]
    refine ⟨by trivial, by trivial, hle, le_refl 0, by omega, Or.inr rfl⟩
  · rw [max_eq_left hle, max_eq_right (by omega)]
    refine ⟨by trivial, by trivial, le_refl 0, by omega, by omega, Or.inl rfl⟩

/-- Witness for C1 at the concrete series [3, 5, 2] and index 1. -/
theorem c1_severity_delta_witness :
    AnalyzeResults.severity_introduced [3, 5, 2] 1 = max 0 (5 - 3) ∧
    AnalyzeResults.severity_fixed [3, 5, 2] 1 = max 0 (-(5 - 3)) ∧
    0 ≤ AnalyzeResults.severity_introduced [3, 5, 2] 1 ∧
    0 ≤ AnalyzeResults.severity_fixed [3, 5, 2] 1 ∧
    AnalyzeResults.severity_introduced [3, 5, 2] 1 -
      AnalyzeResults.severity_fixed [3, 5, 2] 1 = 5 - 3 ∧
    (AnalyzeResults.severity_introduced [3, 5, 2] 1 = 0 ∨
      AnalyzeResults.severity_fixed [3, 5, 2] 1 = 0) :=
  c1_severity_delta [3, 5, 2] 1 (by decide) (by decide)

/-- C2: for every parallel configuration and non-empty list of per-iteration
wall-clock times, the recorded Tpar is the arithmetic mean of the times,
the recorded speedup is Tseq divided by that Tpar, and
`execute_all_configurations` applies exactly this to each configuration. -/
theorem c2_tpar_speedup (tseq : ℚ) (config : ParallelTests.PConfig)
    (times : List ℚ) (hne : times ≠ []) :
    (ParallelTests.execute_configuration tseq config times).tpar =
      ParallelTests.arithmetic_mean times ∧
    (ParallelTests.execute_configuration tseq config times).speedup =
      some (tseq /
        (ParallelTests.execute_configuration tseq config times).tpar) ∧
    ∀ runs : List (ParallelTests.PConfig × List ℚ),
      ParallelTests.execute_all_configurations tseq runs =
        runs.map fun p => ParallelTests.execute_configuration tseq p.1 p.2 := by
  refine ⟨rfl, rfl, fun runs => rfl⟩

/-- Helper: `failingPred` holds iff every recorded status is FAILED. -/
theorem failingPred_iff (sts : List String) :
    SequentialTests.failingPred sts = true ↔ ∀ s ∈ sts, s = "FAILED" := by
  simp [SequentialTests.failingPred, List.all_eq_true, beq_iff_eq]

/-- Helper: the `elif` guard holds iff the statuses contain both
PASSED and FAILED. -/
theorem flakyPred_iff (sts : List String) :
    SequentialTests.flakyPred sts = true ↔
      ("PASSED" ∈ sts ∧ "FAILED" ∈ sts) := by
  simp only [SequentialTests.flakyPred, Bool.and_eq_true, Bool.not_eq_true',
    decide_eq_true_eq]
  constructor
  · rintro ⟨⟨_, hp⟩, hf⟩
    exact ⟨hp, hf⟩
  · rintro ⟨hp, hf⟩
    refine ⟨⟨?_, hp⟩, hf⟩
    cases hfp : SequentialTests.failingPred sts
    · rfl
    · exact absurd ((failingPred_iff sts).mp hfp _ hp) (by decide)

/-- C10: for every possible sequence of pytest outputs, a test is in
`failing_tests` iff every status recorded for it is FAILED, it is in
`flaky_tests` iff its recorded statuses contain both PASSED and FAILED,
and the two lists are disjoint. -/
theorem c10_failing_flaky (lines : List (List Char)) :
    (∀ name sts, (name, sts) ∈ SequentialTests.test_results lines →
      ((name ∈ SequentialTests.failing_tests
          (SequentialTests.test_results lines)) ↔ ∀ s ∈ sts, s = "FAILED") ∧
      ((name ∈ SequentialTests.flaky_tests
          (SequentialTests.test_results lines)) ↔
        ("PASSED" ∈ sts ∧ "FAILED" ∈ sts))) ∧
    (∀ name,
      name ∈ SequentialTests.failing_tests
        (SequentialTests.test_results lines) →
      name ∉ SequentialTests.flaky_tests
        (SequentialTests.test_results lines)) := by
  have hnd := SequentialTests.test_results_nodup_keys lines
  constructor
  · intro name sts hmem
    constructor
    · rw [SequentialTests.failing_tests,
        Assoc.mem_keys_filter_iff _ _ _ _ hnd hmem]
      exact failingPred_iff sts
    · rw [SequentialTests.flaky_tests,
        Assoc.mem_keys_filter_iff _ _ _ _ hnd hmem]
      exact flakyPred_iff sts
  · intro name hfail hflaky
    obtain ⟨sts, hmem, hq⟩ :=
      Assoc.mem_keys_filter_exists _ _ _ hfail
    have hq' : SequentialTests.flakyPred sts = true := by
      rw [SequentialTests.flaky_tests,
        Assoc.mem_keys_filter_iff _ _ _ _ hnd hmem] at hflaky
      exact hflaky
    rw [SequentialTests.flakyPred, hq] at hq'
    simp at hq'

/-- Witness for C10 on the concrete run
["t1 PASSED ok", "t1 FAILED x", "t2 FAILED y"]. -/
theorem c10_failing_flaky_witness :
    ((("t1".toList ∈ SequentialTests.failing_tests
        (SequentialTests.test_results
          ["t1 PASSED ok".toList, "t1 FAILED x".toList,
           "t2 FAILED y".toList])) ↔
      ∀ s ∈ ["PASSED", "FAILED"], s = "FAILED") ∧
     (("t1".toList ∈ SequentialTests.flaky_tests
        (SequentialTests.test_results
          ["t1 PASSED ok".toList, "t1 FAILED x".toList,
           "t2 FAILED y".toList])) ↔
      ("PASSED" ∈ ["PASSED", "FAILED"] ∧
       "FAILED" ∈ ["PASSED", "FAILED"]))) ∧
    ("t2".toList ∉ SequentialTests.flaky_tests
      (SequentialTests.test_results
        ["t1 PASSED ok".toList, "t1 FAILED x".toList,
         "t2 FAILED y".toList])) :=
  ⟨(c10_failing_flaky
      ["t1 PASSED ok".toList, "t1 FAILED x".toList,
       "t2 FAILED y".toList]).1
    "t1".toList ["PASSED", "FAILED"] (by decide),
   (c10_failing_flaky
      ["t1 PASSED ok".toList, "t1 FAILED x".toList,
       "t2 FAILED y".toList]).2
    "t2".toList (by decide)⟩

/-- C6 counterexample: the line "t PASSED FAILED x" contains a FAILED
token but the sequential parser records it as PASSED (the code checks
`" PASSED " in line` first), contradicting the claim that a line
containing FAILED or ERROR is counted as a failure. -/
theorem c6_counterexample :
    SequentialTests.parse_seq_line "t PASSED FAILED x".toList =
      some ("t".toList, "PASSED") ∧
    PyStr.hasSub " FAILED ".toList "t PASSED FAILED x".toList = true := by
  constructor
  · decide
  · decide

/-- C6 (amended): a line is recorded iff it contains a space-delimited
PASSED, FAILED or ERROR token; a line containing the PASSED token is a
pass even when FAILED/ERROR also occur, a line containing FAILED or ERROR
but not PASSED is a failure; the recorded test name is the first
space-separated field; the parallel script records a line as failing iff
it contains the FAILED or ERROR token. -/
theorem c6_line_classification (line : List Char) :
    ((SequentialTests.parse_seq_line line).isSome = true ↔
      (PyStr.hasSub " PASSED ".toList line = true ∨
       PyStr.hasSub " FAILED ".toList line = true ∨
       PyStr.hasSub " ERROR ".toList line = true)) ∧
    (∀ name st, SequentialTests.parse_seq_line line = some (name, st) →
      name = PyStr.firstField line ∧
      (st = "PASSED" ↔ PyStr.hasSub " PASSED ".toList line = true) ∧
      (st = "FAILED" ↔
        (PyStr.hasSub " PASSED ".toList line = false ∧
         (PyStr.hasSub " FAILED ".toList line = true ∨
          PyStr.hasSub " ERROR ".toList line = true)))) ∧
    ((SequentialTests.parse_par_line line).isSome = true ↔
      (PyStr.hasSub " FAILED ".toList line = true ∨
       PyStr.hasSub " ERROR ".toList line = true)) ∧
    (∀ name, SequentialTests.parse_par_line line = some name →
      name = PyStr.firstField line) := by
  unfold SequentialTests.parse_seq_line SequentialTests.parse_par_line
  cases hp : PyStr.hasSub " PASSED ".toList line <;>
    cases hf : PyStr.hasSub " FAILED ".toList line <;>
      cases he : PyStr.hasSub " ERROR ".toList line <;>
        simp_all

/-- Witness for C6 (amended) on the concrete line "t1 FAILED x". -/
theorem c6_line_classification_witness :
    "t1".toList = PyStr.firstField "t1 FAILED x".toList ∧
    ("FAILED" = "PASSED" ↔
      PyStr.hasSub " PASSED ".toList "t1 FAILED x".toList = true) ∧
    ("FAILED" = "FAILED" ↔
      (PyStr.hasSub " PASSED ".toList "t1 FAILED x".toList = false ∧
       (PyStr.hasSub " FAILED ".toList "t1 FAILED x".toList = true ∨
        PyStr.hasSub " ERROR ".toList "t1 FAILED x".toList = true))) :=
  (c6_line_classification "t1 FAILED x".toList).2.1
    "t1".toList "FAILED" (by decide)

/-- Witness for C2 at a concrete configuration with times [2, 4]. -/
theorem c2_tpar_speedup_witness :
    (ParallelTests.execute_configuration 6 ⟨"auto", "1", "load"⟩ [2, 4]).tpar =
      ParallelTests.arithmetic_mean [2, 4] ∧
    (ParallelTests.execute_configuration 6 ⟨"auto", "1", "load"⟩ [2, 4]).speedup =
      some (6 /
        (ParallelTests.execute_configuration 6 ⟨"auto", "1", "load"⟩ [2, 4]).tpar) ∧
    ∀ runs : List (ParallelTests.PConfig × List ℚ),
      ParallelTests.execute_all_configurations 6 runs =
        runs.map fun p => ParallelTests.execute_configuration 6 p.1 p.2 :=
  c2_tpar_speedup 6 ⟨"auto", "1", "load"⟩ [2, 4] (by decide)

/-- C3 counterexample: on an unreadable Bandit output file,
`parse_bandit_results` returns `None`, not a default metrics dictionary. -/
theorem c3_counterexample :
    BanditRun.parse_bandit_results none = none ∧
    (BanditRun.parse_bandit_results none).isSome = false :=
  ⟨rfl, rfl⟩

/-- C3 (amended): a missing coverage JSON is caught and replaced by `{}`
in `load_coverage_data`, a missing/unreadable `sequential_results.json` is
replaced by the default dictionary in the results-analysis `main`, and
`parse_bandit_results` returns `None` (not a dictionary) for an unreadable
Bandit output file; none of these raises. -/
theorem c3_missing_file_defaults :
    (∀ b, (CoverageScripts.load_coverage_data none b).1 =
      CoverageScripts.empty_coverage) ∧
    (∀ a, (CoverageScripts.load_coverage_data a none).2 =
      CoverageScripts.empty_coverage) ∧
    AnalysisScript.load_sequential_results none =
      AnalysisScript.default_sequential_results ∧
    BanditRun.parse_bandit_results none = none :=
  ⟨fun _ => rfl, fun _ => rfl, rfl, rfl⟩

namespace PyStr

theorem splitOnChar_joinChar (sep : Char) :
    ∀ l : List (List Char), l ≠ [] → (∀ s ∈ l, sep ∉ s) →
      splitOnChar sep (joinChar sep l) = l
  | [], h, _ => absurd rfl h
  | [x], _, hs => by
    simp only [joinChar]
    exact splitOnChar_of_not_mem sep x (hs x (by simp))
  | x :: y :: rest, _, hs => by
    have hx : sep ∉ x := hs x (by simp)
    have hrec := splitOnChar_joinChar sep (y :: rest) (by simp)
      (fun s hsm => hs s (List.mem_cons_of_mem x hsm))
    simp only [joinChar]
    rw [splitOnChar_append sep x _ hx, hrec]

end PyStr

/-- C7: writing the per-commit `unique_cwes` field as the comma-joined
list and reading it back (missing/NaN or empty field mapping to `[]`,
otherwise splitting on commas) yields the original list, for every list
of non-empty, comma-free CWE id strings, including the empty list. -/
theorem c7_cwes_round_trip (l : List (List Char))
    (h : ∀ s ∈ l, s ≠ [] ∧ ',' ∉ s) :
    AnalyzeResults.read_unique_cwes (BanditRun.write_unique_cwes l) = l := by
  cases l with
  | nil => rfl
  | cons x rest =>
    have hx := h x (by simp)
    have hne : PyStr.joinChar ',' (x :: rest) ≠ [] :=
      PyStr.joinChar_ne_nil ',' x rest hx.1
    unfold BanditRun.write_unique_cwes AnalyzeResults.read_unique_cwes
    rw [if_neg hne]
    exact PyStr.splitOnChar_joinChar ',' (x :: rest) (by simp)
      (fun s hsm => (h s hsm).2)

/-- Witness for C7 at the list ["79", "327"]. -/
theorem c7_cwes_round_trip_witness :
    AnalyzeResults.read_unique_cwes
      (BanditRun.write_unique_cwes ["79".toList, "327".toList]) =
      ["79".toList, "327".toList] :=
  c7_cwes_round_trip ["79".toList, "327".toList] (by decide)

/-- C8: in the per-commit loop, a commit on which the checkout/Bandit step
raises contributes no row and leaves the rows of the other commits
unchanged (the exception is caught and the loop continues), and a row is
appended for a commit iff it did not raise and `parse_bandit_results`
returned a non-None metrics dictionary for it. -/
theorem c8_commit_failure_isolation
    (xs ys : List (BanditRun.CommitInfo × Bool × Option BanditRun.BanditData))
    (c : BanditRun.CommitInfo) (fails : Bool)
    (out : Option BanditRun.BanditData) :
    BanditRun.main_rows (xs ++ (c, fails, out) :: ys) =
      BanditRun.main_rows xs ++
        (if fails then []
         else
           match BanditRun.parse_bandit_results out with
           | none => []
           | some m => [BanditRun.make_row c m]) ++
        BanditRun.main_rows ys ∧
    ((BanditRun.process_commit c fails out).isSome ↔
      (fails = false ∧ (BanditRun.parse_bandit_results out).isSome)) := by
  constructor
  · unfold BanditRun.main_rows
    rw [List.filterMap_append, List.filterMap_cons]
    cases fails with
    | true => simp [BanditRun.process_commit]
    | false =>
      cases hout : BanditRun.parse_bandit_results out with
      | none => simp [BanditRun.process_commit, hout]
      | some m => simp [BanditRun.process_commit, hout]
  · cases fails with
    | true => simp [BanditRun.process_commit]
    | false =>
      cases hout : BanditRun.parse_bandit_results out with
      | none => simp [BanditRun.process_commit, hout]
      | some m => simp [BanditRun.process_commit, hout]

namespace BanditRun

theorem tally_cwe_counts (m : Metrics) (r : BanditFinding) :
    (tally_cwe m r).high_confidence = m.high_confidence ∧
    (tally_cwe m r).medium_confidence = m.medium_confidence ∧
    (tally_cwe m r).low_confidence = m.low_confidence ∧
    (tally_cwe m r).high_severity = m.high_severity ∧
    (tally_cwe m r).medium_severity = m.medium_severity ∧
    (tally_cwe m r).low_severity = m.low_severity := by
  cases hid : r.issue_cwe_id with
  | some id => simp [tally_cwe, hid]
  | none =>
    cases hcs : cwe_search (r.issue_text.getD "").toList with
    | some ds =>
      simp only [String.toList] at hcs
      simp [tally_cwe, hid, hcs]
    | none =>
      simp only [String.toList] at hcs
      simp [tally_cwe, hid, hcs]

theorem tally_confidence_counts (m : Metrics) (r : BanditFinding) :
    (tally_confidence m r).high_confidence =
      m.high_confidence + (if r.issue_confidence = some "HIGH" then 1 else 0) ∧
    (tally_confidence m r).medium_confidence =
      m.medium_confidence +
        (if r.issue_confidence = some "MEDIUM" then 1 else 0) ∧
    (tally_confidence m r).low_confidence =
      m.low_confidence + (if r.issue_confidence = some "LOW" then 1 else 0) ∧
    (tally_confidence m r).high_severity = m.high_severity ∧
    (tally_confidence m r).medium_severity = m.medium_severity ∧
    (tally_confidence m r).low_severity = m.low_severity := by
  unfold tally_confidence
  split_ifs with h1 h2 h3 <;> simp_all

theorem tally_severity_counts (m : Metrics) (r : BanditFinding) :
    (tally_severity m r).high_confidence = m.high_confidence ∧
    (tally_severity m r).medium_confidence = m.medium_confidence ∧
    (tally_severity m r).low_confidence = m.low_confidence ∧
    (tally_severity m r).high_severity =
      m.high_severity + (if r.issue_severity = some "HIGH" then 1 else 0) ∧
    (tally_severity m r).medium_severity =
      m.medium_severity + (if r.issue_severity = some "MEDIUM" then 1 else 0) ∧
    (tally_severity m r).low_severity =
      m.low_severity + (if r.issue_severity = some "LOW" then 1 else 0) := by
  unfold tally_severity
  split_ifs with h1 h2 h3 <;> simp_all

theorem tally_counts (m : Metrics) (r : BanditFinding) :
    (tally m r).high_confidence =
      m.high_confidence + (if r.issue_confidence = some "HIGH" then 1 else 0) ∧
    (tally m r).medium_confidence =
      m.medium_confidence +
        (if r.issue_confidence = some "MEDIUM" then 1 else 0) ∧
    (tally m r).low_confidence =
      m.low_confidence + (if r.issue_confidence = some "LOW" then 1 else 0) ∧
    (tally m r).high_severity =
      m.high_severity + (if r.issue_severity = some "HIGH" then 1 else 0) ∧
    (tally m r).medium_severity =
      m.medium_severity + (if r.issue_severity = some "MEDIUM" then 1 else 0) ∧
    (tally m r).low_severity =
      m.low_severity + (if r.issue_severity = some "LOW" then 1 else 0) := by
  obtain ⟨w1, w2, w3, w4, w5, w6⟩ :=
    tally_cwe_counts (tally_severity (tally_confidence m r) r) r
  obtain ⟨s1, s2, s3, s4, s5, s6⟩ :=
    tally_severity_counts (tally_confidence m r) r
  obtain ⟨c1, c2, c3, c4, c5, c6⟩ := tally_confidence_counts m r
  unfold tally
  refine ⟨?_, ?_, ?_, ?_, ?_, ?_⟩
  · rw [w1, s1, c1]
  · rw [w2, s2, c2]
  · rw [w3, s3, c3]
  · rw [w4, s4, c4]
  · rw [w5, s5, c5]
  · rw [w6, s6, c6]

theorem foldl_tally_counts (rs : List BanditFinding) :
    ∀ m0 : Metrics,
      (rs.foldl tally m0).high_confidence =
        m0.high_confidence +
          rs.countP (fun r => decide (r.issue_confidence = some "HIGH")) ∧
      (rs.foldl tally m0).medium_confidence =
        m0.medium_confidence +
          rs.countP (fun r => decide (r.issue_confidence = some "MEDIUM")) ∧
      (rs.foldl tally m0).low_confidence =
        m0.low_confidence +
          rs.countP (fun r => decide (r.issue_confidence = some "LOW")) ∧
      (rs.foldl tally m0).high_severity =
        m0.high_severity +
          rs.countP (fun r => decide (r.issue_severity = some "HIGH")) ∧
      (rs.foldl tally m0).medium_severity =
        m0.medium_severity +
          rs.countP (fun r => decide (r.issue_severity = some "MEDIUM")) ∧
      (rs.foldl tally m0).low_severity =
        m0.low_severity +
          rs.countP (fun r => decide (r.issue_severity = some "LOW")) := by
  induction rs with
  | nil => intro m0; simp
  | cons r rs ih =>
    intro m0
    rw [List.foldl_cons]
    obtain ⟨i1, i2, i3, i4, i5, i6⟩ := ih (tally m0 r)
    obtain ⟨t1, t2, t3, t4, t5, t6⟩ := tally_counts m0 r
    refine ⟨?_, ?_, ?_, ?_, ?_, ?_⟩
    · rw [i1, t1, List.countP_cons]
      by_cases hc : r.issue_confidence = some "HIGH" <;> simp [hc] <;> omega
    · rw [i2, t2, List.countP_cons]
      by_cases hc : r.issue_confidence = some "MEDIUM" <;> simp [hc] <;> omega
    · rw [i3, t3, List.countP_cons]
      by_cases hc : r.issue_confidence = some "LOW" <;> simp [hc] <;> omega
    · rw [i4, t4, List.countP_cons]
      by_cases hc : r.issue_severity = some "HIGH" <;> simp [hc] <;> omega
    · rw [i5, t5, List.countP_cons]
      by_cases hc : r.issue_severity = some "MEDIUM" <;> simp [hc] <;> omega
    · rw [i6, t6, List.countP_cons]
      by_cases hc : r.issue_severity = some "LOW" <;> simp [hc] <;> omega

theorem countP_three_le {α : Type} (p1 p2 p3 : α → Bool)
    (h : ∀ r, (if p1 r then 1 else 0) + (if p2 r then 1 else 0) +
      (if p3 r then 1 else 0) ≤ 1) (l : List α) :
    l.countP p1 + l.countP p2 + l.countP p3 ≤ l.length := by
  induction l with
  | nil => simp
  | cons a l ih =>
    rw [List.countP_cons, List.countP_cons, List.countP_cons,
      List.length_cons]
    have ha := h a
    omega

end BanditRun

/-- C4: for every Bandit report, the parsed metrics count, for each level
X in {HIGH, MEDIUM, LOW}, exactly the `results[]` entries whose
`issue_confidence` (resp. `issue_severity`) equals X, and each trio of
counts sums to at most the number of findings. -/
theorem c4_bandit_level_counts (data : BanditRun.BanditData) :
    (BanditRun.compute_metrics data).high_confidence =
      (data.results.getD []).countP
        (fun r => decide (r.issue_confidence = some "HIGH")) ∧
    (BanditRun.compute_metrics data).medium_confidence =
      (data.results.getD []).countP
        (fun r => decide (r.issue_confidence = some "MEDIUM")) ∧
    (BanditRun.compute_metrics data).low_confidence =
      (data.results.getD []).countP
        (fun r => decide (r.issue_confidence = some "LOW")) ∧
    (BanditRun.compute_metrics data).high_severity =
      (data.results.getD []).countP
        (fun r => decide (r.issue_severity = some "HIGH")) ∧
    (BanditRun.compute_metrics data).medium_severity =
      (data.results.getD []).countP
        (fun r => decide (r.issue_severity = some "MEDIUM")) ∧
    (BanditRun.compute_metrics data).low_severity =
      (data.results.getD []).countP
        (fun r => decide (r.issue_severity = some "LOW")) ∧
    (BanditRun.compute_metrics data).high_confidence +
      (BanditRun.compute_metrics data).medium_confidence +
      (BanditRun.compute_metrics data).low_confidence ≤
      (data.results.getD []).length ∧
    (BanditRun.compute_metrics data).high_severity +
      (BanditRun.compute_metrics data).medium_severity +
      (BanditRun.compute_metrics data).low_severity ≤
      (data.results.getD []).length := by
  obtain ⟨f1, f2, f3, f4, f5, f6⟩ :=
    BanditRun.foldl_tally_counts (data.results.getD []) BanditRun.init_metrics
  have hzero : BanditRun.init_metrics.high_confidence = 0 ∧
      BanditRun.init_metrics.medium_confidence = 0 ∧
      BanditRun.init_metrics.low_confidence = 0 ∧
      BanditRun.init_metrics.high_severity = 0 ∧
      BanditRun.init_metrics.medium_severity = 0 ∧
      BanditRun.init_metrics.low_severity = 0 := ⟨rfl, rfl, rfl, rfl, rfl, rfl⟩
  have hcm : BanditRun.compute_metrics data =
      (data.results.getD []).foldl BanditRun.tally BanditRun.init_metrics := rfl
  have hexc : ∀ r : BanditRun.BanditFinding,
      (if decide (r.issue_confidence = some "HIGH") then 1 else 0) +
      (if decide (r.issue_confidence = some "MEDIUM") then 1 else 0) +
      (if decide (r.issue_confidence = some "LOW") then 1 else 0) ≤ 1 := by
    intro r
    by_cases h1 : r.issue_confidence = some "HIGH" <;>
      by_cases h2 : r.issue_confidence = some "MEDIUM" <;>
        by_cases h3 : r.issue_confidence = some "LOW" <;>
          simp_all
  have hexs : ∀ r : BanditRun.BanditFinding,
      (if decide (r.issue_severity = some "HIGH") then 1 else 0) +
      (if decide (r.issue_severity = some "MEDIUM") then 1 else 0) +
      (if decide (r.issue_severity = some "LOW") then 1 else 0) ≤ 1 := by
    intro r
    by_cases h1 : r.issue_severity = some "HIGH" <;>
      by_cases h2 : r.issue_severity = some "MEDIUM" <;>
        by_cases h3 : r.issue_severity = some "LOW" <;>
          simp_all
  rw [hcm, f1, f2, f3, f4, f5, f6, hzero.1, hzero.2.1, hzero.2.2.1,
    hzero.2.2.2.1, hzero.2.2.2.2.1, hzero.2.2.2.2.2]
  refine ⟨by omega, by omega, by omega, by omega, by omega, by omega, ?_, ?_⟩
  · have := BanditRun.countP_three_le _ _ _ hexc (data.results.getD [])
    omega
  · have := BanditRun.countP_three_le _ _ _ hexs (data.results.getD [])
    omega

namespace CoverageScripts

theorem module_files_cons (f : List Char × FileSummary)
    (fs : List (List Char × FileSummary)) (m : List Char) :
    module_files (f :: fs) m =
      if file_module f.1 = some m then f.2 :: module_files fs m
      else module_files fs m := by
  by_cases h : file_module f.1 = some m
  · simp [module_files, List.filter_cons, h]
  · simp [module_files, List.filter_cons, h]

theorem foldl_upd_acc_fields (l : List FileSummary) :
    ∀ a : ModuleAcc,
      (l.foldl upd_acc a).covered_lines =
        a.covered_lines + (l.map fun s => s.covered_lines.getD 0).sum ∧
      (l.foldl upd_acc a).total_lines =
        a.total_lines + (l.map fun s => s.num_statements.getD 0).sum := by
  induction l with
  | nil => intro a; simp
  | cons s l ih =>
    intro a
    rw [List.foldl_cons]
    obtain ⟨i1, i2⟩ := ih (upd_acc a s)
    constructor
    · rw [i1, List.map_cons, List.sum_cons]
      simp only [upd_acc]
      ring
    · rw [i2, List.map_cons, List.sum_cons]
      simp only [upd_acc]
      ring

theorem lookupA_module_foldl (files : List (List Char × FileSummary)) :
    ∀ (acc : List (List Char × ModuleAcc)) (m : List Char),
      Assoc.lookupA (files.foldl module_step acc) m =
        match Assoc.lookupA acc m with
        | some a => some ((module_files files m).foldl upd_acc a)
        | none =>
          if module_files files m = [] then none
          else some ((module_files files m).foldl upd_acc module_default) := by
  induction files with
  | nil =>
    intro acc m
    cases h : Assoc.lookupA acc m <;> simp [module_files, h]
  | cons f fs ih =>
    intro acc m
    rw [List.foldl_cons, module_files_cons]
    cases hfm : file_module f.1 with
    | none =>
      have hstep : module_step acc f = acc := by simp [module_step, hfm]
      rw [hstep, ih acc m]
      cases h : Assoc.lookupA acc m <;> simp [h]
    | some mf =>
      have hstep : module_step acc f =
          Assoc.upsertWith (fun a => upd_acc a f.2) module_default acc mf := by
        simp [module_step, hfm]
      rw [hstep, ih _ m, Assoc.lookupA_upsertWith]
      by_cases hmm : mf = m
      · subst hmm
        rw [if_pos rfl]
        cases h : Assoc.lookupA acc mf with
        | some a => simp [h, List.foldl_cons]
        | none => simp [h, List.foldl_cons]
      · rw [if_neg hmm]
        cases h : Assoc.lookupA acc m <;> simp [h, hmm]

theorem module_totals_nodup_keys (files : List (List Char × FileSummary)) :
    ((module_totals files).map Prod.fst).Nodup := by
  unfold module_totals
  have h : ∀ (fl : List (List Char × FileSummary))
      (acc : List (List Char × ModuleAcc)),
      (acc.map Prod.fst).Nodup →
      ((fl.foldl module_step acc).map Prod.fst).Nodup := by
    intro fl
    induction fl with
    | nil => intro acc hacc; exact hacc
    | cons f fs ih =>
      intro acc hacc
      rw [List.foldl_cons]
      refine ih _ ?_
      cases hfm : file_module f.1 with
      | none => simpa [module_step, hfm] using hacc
      | some mf =>
        simp only [module_step, hfm]
        exact Assoc.nodupKeys_upsertWith _ _ acc mf hacc
  exact h files [] (by simp)

end CoverageScripts

/-- C5: the derived line-coverage ratio equals covered_lines divided by
num_statements (read from `totals` in `extract_coverage_metrics`, and as a
per-module sum of `files.<path>.summary` values in
`extract_module_metrics`) whenever num_statements is positive, and equals
0 when num_statements is zero or absent, so no division by zero occurs. -/
theorem c5_line_coverage_division (data : CoverageScripts.CoverageData) :
    (∀ t n, data.totals = some t → t.num_statements = some n → 0 < n →
      (CoverageScripts.extract_coverage_metrics data).line_coverage =
        (t.covered_lines.getD 0 : ℚ) / (n : ℚ)) ∧
    (∀ t, data.totals = some t →
      (t.num_statements = none ∨ t.num_statements = some 0) →
      (CoverageScripts.extract_coverage_metrics data).line_coverage = 0) ∧
    (data.totals = none →
      (CoverageScripts.extract_coverage_metrics data).line_coverage = 0) ∧
    (∀ m mm, (m, mm) ∈ CoverageScripts.extract_module_metrics data →
      mm.covered_lines =
        CoverageScripts.module_covered_sum (data.files.getD []) m ∧
      mm.total_lines =
        CoverageScripts.module_total_sum (data.files.getD []) m ∧
      mm.coverage =
        (if 0 < mm.total_lines then
          (mm.covered_lines : ℚ) / (mm.total_lines : ℚ)
        else 0)) := by
  refine ⟨?_, ?_, ?_, ?_⟩
  · intro t n ht hn hpos
    simp [CoverageScripts.extract_coverage_metrics, ht, hn, hpos]
  · intro t ht hdisj
    rcases hdisj with hn | hn <;>
      simp [CoverageScripts.extract_coverage_metrics, ht, hn]
  · intro ht
    simp [CoverageScripts.extract_coverage_metrics, ht]
  · intro m mm hmem
    obtain ⟨p, hp, hconv⟩ := List.mem_map.mp hmem
    injection hconv with hfst hsnd
    subst hfst
    have hlk : Assoc.lookupA
        (CoverageScripts.module_totals (data.files.getD [])) p.1 = some p.2 :=
      Assoc.lookupA_of_mem_nodup _ _ _
        (CoverageScripts.module_totals_nodup_keys (data.files.getD []))
        (by rwa [← Prod.mk.eta (p := p)] at hp)
    rw [CoverageScripts.module_totals,
      CoverageScripts.lookupA_module_foldl (data.files.getD []) [] p.1] at hlk
    simp only [Assoc.lookupA] at hlk
    by_cases hemp :
        CoverageScripts.module_files (data.files.getD []) p.1 = []
    · rw [if_pos hemp] at hlk
      cases hlk
    · rw [if_neg hemp] at hlk
      injection hlk with hacc
      obtain ⟨hcov, htot⟩ := CoverageScripts.foldl_upd_acc_fields
        (CoverageScripts.module_files (data.files.getD []) p.1)
        CoverageScripts.module_default
      rw [hacc] at hcov htot
      refine ⟨?_, ?_, ?_⟩
      · rw [← hsnd]
        simpa [CoverageScripts.module_covered_sum,
          CoverageScripts.module_default] using hcov
      · rw [← hsnd]
        simpa [CoverageScripts.module_total_sum,
          CoverageScripts.module_default] using htot
      · rw [← hsnd]

namespace GitLog

theorem decDigits_of_digits (s : List Char) (hne : s ≠ [])
    (hd : ∀ c ∈ s, c.isDigit) : decDigits s = some (digitsVal s) := by
  unfold decDigits
  rw [if_pos ⟨hne, List.all_eq_true.mpr hd⟩]

theorem splitLimit_succ (sep : Char) (n : Nat) (x r : List Char)
    (hx : sep ∉ x) :
    PyStr.splitLimit sep (n + 1) (x ++ sep :: r) =
      x :: PyStr.splitLimit sep n r := by
  simp only [PyStr.splitLimit, PyStr.splitFirst_append sep x r hx]

theorem splitLimit_three (h a t m : List Char) (hh : ',' ∉ h)
    (ha : ',' ∉ a) (ht : ',' ∉ t) :
    PyStr.splitLimit ',' 3 (h ++ ',' :: (a ++ ',' :: (t ++ ',' :: m))) =
      [h, a, t, m] := by
  have e3 : (3 : Nat) = 2 + 1 := rfl
  have e2 : (2 : Nat) = 1 + 1 := rfl
  have e1 : (1 : Nat) = 0 + 1 := rfl
  rw [e3, splitLimit_succ ',' 2 h _ hh, e2, splitLimit_succ ',' 1 a _ ha,
    e1, splitLimit_succ ',' 0 t _ ht]
  rfl

theorem parse_render (fmt : Int → List Char)
    (e : List Char × List Char × List Char × List Char)
    (he1 : ',' ∉ e.1) (he2 : ',' ∉ e.2.1) (he3 : e.2.2.1 ≠ [])
    (he4 : ∀ c ∈ e.2.2.1, c.isDigit) :
    parse_commit_line fmt (render_git_line e) =
      some (entry_record fmt e) := by
  obtain ⟨h, a, t, m⟩ := e
  have ht : ',' ∉ t := by
    intro hc
    exact absurd (he4 ',' hc) (by decide)
  have hline : render_git_line (h, a, t, m) ≠ [] := by
    simp [render_git_line]
  unfold parse_commit_line
  rw [if_neg hline]
  unfold render_git_line
  rw [splitLimit_three h a t m he1 he2 ht]
  simp only []
  rw [decDigits_of_digits t he3 he4]
  rfl

theorem filterMap_eq_map_of_forall_some {α β : Type} (f : α → Option β)
    (g : α → β) (l : List α) (h : ∀ x ∈ l, f x = some (g x)) :
    l.filterMap f = l.map g := by
  induction l with
  | nil => rfl
  | cons x xs ih =>
    rw [List.filterMap_cons, h x (List.mem_cons_self x xs), List.map_cons,
      ih fun y hy => h y (List.mem_cons_of_mem x hy)]

end GitLog

/-- C9: `get_last_100_non_merge_commits` returns at most 100 records; a
well-formed git-log line (comma-free hash/author, all-digit timestamp)
splits into exactly four fields on the first three commas, so a subject
containing commas is kept whole in the message field, the record carries
hash, author, integer timestamp, formatted date, and message, and the
output preserves the order of the git log lines (most recent first). -/
theorem c9_git_log_parsing :
    (∀ (fmt : Int → List Char) (lines : List (List Char)),
      (GitLog.get_last_100_non_merge_commits fmt lines).length ≤ 100) ∧
    (∀ (fmt : Int → List Char)
        (entries : List (List Char × List Char × List Char × List Char)),
      (∀ e ∈ entries, ',' ∉ e.1 ∧ ',' ∉ e.2.1 ∧ e.2.2.1 ≠ [] ∧
        ∀ c ∈ e.2.2.1, c.isDigit) →
      GitLog.get_last_100_non_merge_commits fmt
          (entries.map GitLog.render_git_line) =
        (entries.map (GitLog.entry_record fmt)).take 100) := by
  constructor
  · intro fmt lines
    unfold GitLog.get_last_100_non_merge_commits
    rw [List.length_take]
    omega
  · intro fmt entries hwf
    unfold GitLog.get_last_100_non_merge_commits
    rw [List.filterMap_map]
    rw [GitLog.filterMap_eq_map_of_forall_some
      (GitLog.parse_commit_line fmt ∘ GitLog.render_git_line)
      (GitLog.entry_record fmt) entries
      (fun e he => GitLog.parse_render fmt e (hwf e he).1 (hwf e he).2.1
        (hwf e he).2.2.1 (hwf e he).2.2.2)]

/-- Witness for C9 on a two-entry git log whose second subject contains
commas. -/
theorem c9_git_log_parsing_witness :
    (GitLog.get_last_100_non_merge_commits (fun _ => [])
      ["x".toList, "".toList]).length ≤ 100 ∧
    GitLog.get_last_100_non_merge_commits (fun _ => [])
        ([("aaa1".toList, "Alice".toList, "1700000000".toList,
            "initial commit".toList),
          ("bbb2".toList, "Bob".toList, "1700000100".toList,
            "fix x, y, and z".toList)].map GitLog.render_git_line) =
      ([("aaa1".toList, "Alice".toList, "1700000000".toList,
          "initial commit".toList),
        ("bbb2".toList, "Bob".toList, "1700000100".toList,
          "fix x, y, and z".toList)].map
        (GitLog.entry_record (fun _ => []))).take 100 :=
  ⟨c9_git_log_parsing.1 (fun _ => []) ["x".toList, "".toList],
   c9_git_log_parsing.2 (fun _ => [])
     [("aaa1".toList, "Alice".toList, "1700000000".toList,
        "initial commit".toList),
      ("bbb2".toList, "Bob".toList, "1700000100".toList,
        "fix x, y, and z".toList)] (by decide)⟩

/-- Witness for C5: a totals block with 8/10 statements covered, one with
num_statements absent, and a one-file module with zero statements. -/
theorem c5_line_coverage_division_witness :
    (CoverageScripts.extract_coverage_metrics
        ⟨some ⟨some 8, some 10, none, none⟩, none⟩).line_coverage =
      ((8 : Int) : ℚ) / ((10 : Int) : ℚ) ∧
    (CoverageScripts.extract_coverage_metrics
        ⟨some ⟨some 8, none, none, none⟩, none⟩).line_coverage = 0 ∧
    ((⟨0, 0, 1, 0⟩ : CoverageScripts.ModuleMetrics).covered_lines =
      CoverageScripts.module_covered_sum
        ((⟨none, some [("algorithms/arrays/x.py".toList, ⟨some 0, some 0⟩)]⟩ :
          CoverageScripts.CoverageData).files.getD []) "arrays".toList ∧
     (⟨0, 0, 1, 0⟩ : CoverageScripts.ModuleMetrics).total_lines =
      CoverageScripts.module_total_sum
        ((⟨none, some [("algorithms/arrays/x.py".toList, ⟨some 0, some 0⟩)]⟩ :
          CoverageScripts.CoverageData).files.getD []) "arrays".toList ∧
     (⟨0, 0, 1, 0⟩ : CoverageScripts.ModuleMetrics).coverage =
      (if 0 < (⟨0, 0, 1, 0⟩ : CoverageScripts.ModuleMetrics).total_lines then
        ((⟨0, 0, 1, 0⟩ : CoverageScripts.ModuleMetrics).covered_lines : ℚ) /
          ((⟨0, 0, 1, 0⟩ : CoverageScripts.ModuleMetrics).total_lines : ℚ)
      else 0)) :=
  ⟨(c5_line_coverage_division ⟨some ⟨some 8, some 10, none, none⟩, none⟩).1
      ⟨some 8, some 10, none, none⟩ 10 rfl rfl (by decide),
   (c5_line_coverage_division ⟨some ⟨some 8, none, none, none⟩, none⟩).2.1
      ⟨some 8, none, none, none⟩ rfl (Or.inl rfl),
   (c5_line_coverage_division
      ⟨none, some [("algorithms/arrays/x.py".toList, ⟨some 0, some 0⟩)]⟩).2.2.2
      "arrays".toList ⟨0, 0, 1, 0⟩ (by decide)⟩
